import Mathlib

/-
Verification development for the Lexicon word subsystem (lexicon.cpp /
lexicon.h, with corpus loading in AssetManager.cpp).

Modelling choices (shallow embedding):
- C++ characters (bytes fed to isspace / tolower in the C locale) are
  modelled as Nat; C++ strings as List Nat.
- unordered_map<char, TrieNode*> is modelled as an association list
  List (Nat x TrieNode); unordered_set<string> as a List (List Nat) with a
  membership-guarded insert (iteration order of the hash containers is
  abstracted as list order).
- rand() is modelled by an explicit list of draws consumed one call at a
  time; the unbounded do-while loop of GeneratePrefixFromRandomWord
  returns none when the supplied draws run out (the C++ loop would keep
  spinning), and some result when the loop exits.
- int counters (count, MinAmount) are modelled as Int.
-/

namespace Framework

/-- Embeds std::isspace in the C locale on a byte: space (32) and the
control characters 9..13 (tab, newline, vertical tab, form feed, carriage
return). -/
def isSpaceChar (c : Nat) : Bool := decide (c = 32 ∨ (9 ≤ c ∧ c ≤ 13))

/-- Embeds ::tolower in the C locale on a byte: maps 65..90 (ascii upper
case) to 97..122, leaves everything else unchanged. -/
def toLowerChar (c : Nat) : Nat := if 65 ≤ c ∧ c ≤ 90 then c + 32 else c

/-- Embeds Framework::trim (lexicon.cpp): drop leading whitespace and
trailing whitespace; all-space input becomes the empty string. -/
def trim (s : List Nat) : List Nat :=
  ((s.dropWhile isSpaceChar).reverse.dropWhile isSpaceChar).reverse

/-- Embeds the check word.find(candidate) == 0 used in
CheckPrefixHasMinimumWords: the first argument occurs at position 0 of the
second, i.e. it is a leading substring. -/
def isLeadingSubstring : List Nat → List Nat → Bool
  | [], _ => true
  | _ :: _, [] => false
  | p :: ps, c :: cs => p == c && isLeadingSubstring ps cs

/-- Embeds TrieNode (lexicon.h): a map from character to child node plus
the isEndOfWord flag. -/
inductive TrieNode : Type where
  | mk (children : List (Nat × TrieNode)) (isEndOfWord : Bool)

def TrieNode.children : TrieNode → List (Nat × TrieNode)
  | .mk ch _ => ch

def TrieNode.isEndOfWord : TrieNode → Bool
  | .mk _ e => e

/-- Embeds the TrieNode default constructor: no children, not terminal. -/
def TrieNode.newNode : TrieNode := .mk [] false

/-- Embeds children.find(c): lookup of a child by character. -/
def findChild (c : Nat) : List (Nat × TrieNode) → Option TrieNode
  | [] => none
  | (d, t) :: rest => if d == c then some t else findChild c rest

/-- Embeds children[c] = t on the unordered_map: replace the entry with key
c if present, otherwise add one. -/
def setChild (c : Nat) (t : TrieNode) : List (Nat × TrieNode) → List (Nat × TrieNode)
  | [] => [(c, t)]
  | (d, u) :: rest => if d == c then (d, t) :: rest else (d, u) :: setChild c t rest

/-- Embeds the node walk of Trie::insert (lexicon.cpp): descend one node
per character, creating missing children, and mark the final node
terminal. -/
def insertPath : TrieNode → List Nat → TrieNode
  | .mk ch _, [] => .mk ch true
  | .mk ch e, c :: cs =>
      .mk (setChild c (insertPath ((findChild c ch).getD TrieNode.newNode) cs) ch) e

/-- Embeds the character walk shared by Trie::search and Trie::startsWith:
follow the path for the given string, returning the final node when every
character is found. -/
def walkPath : TrieNode → List Nat → Option TrieNode
  | t, [] => some t
  | t, c :: cs =>
      match findChild c t.children with
      | none => none
      | some u => walkPath u cs

/-- Result of Trie::search starting from an arbitrary node: the path for
the word exists and its final node is terminal. -/
def nodeSearch (t : TrieNode) (w : List Nat) : Bool :=
  match walkPath t w with
  | none => false
  | some n => n.isEndOfWord

/-- Embeds Framework::Trie: an owned root node plus the backing word set
(unordered_set modelled as a duplicate-free list). -/
structure Trie where
  root : TrieNode
  words : List (List Nat)

/-- Embeds the Trie constructor: fresh root, empty word set. -/
def Trie.newTrie : Trie := ⟨TrieNode.newNode, []⟩

/-- Embeds Trie::insert: walk/create the node path, mark the final node
terminal, and add the word to the backing set (a set insert: no effect on
a duplicate). -/
def Trie.insert (t : Trie) (word : List Nat) : Trie :=
  { root := insertPath t.root word
    words := if t.words.contains word then t.words else t.words ++ [word] }

/-- Embeds Trie::search: the full character path exists and the final node
is terminal. -/
def Trie.search (t : Trie) (word : List Nat) : Bool :=
  nodeSearch t.root word

/-- Embeds Trie::startsWith: the character path for the argument exists,
terminal flags ignored. -/
def Trie.startsWith (t : Trie) (pre : List Nat) : Bool :=
  (walkPath t.root pre).isSome

/-- Embeds Trie::getAllWords: the backing word set. -/
def Trie.getAllWords (t : Trie) : List (List Nat) := t.words

/-- A trie reached from the fresh constructor by a sequence of inserts, in
order. -/
def buildTrie (ws : List (List Nat)) : Trie := ws.foldl Trie.insert Trie.newTrie

/-- Embeds Framework::Lexicon state: the dictionary trie, the nsfw trie,
and the loaded list of curated prefixes. -/
structure Lexicon where
  trie : Trie
  nsfwTrie : Trie
  prefixList : List (List Nat)

/-- Embeds Lexicon::checkUserWord: trim, lowercase, then search the
dictionary trie. -/
def Lexicon.checkUserWord (lx : Lexicon) (userWord : List Nat) : Bool :=
  lx.trie.search ((trim userWord).map toLowerChar)

/-- Embeds Lexicon::isNsfwWord: trim, lowercase, then search the nsfw
trie. -/
def Lexicon.isNsfwWord (lx : Lexicon) (word : List Nat) : Bool :=
  lx.nsfwTrie.search ((trim word).map toLowerChar)

/-- Embeds the counting loop of Lexicon::CheckPrefixHasMinimumWords: scan
the word set, incrementing count on each word with the candidate as a
leading substring, returning true as soon as count reaches MinAmount. -/
def checkCount (pre : List Nat) (MinAmount : Int) : List (List Nat) → Int → Bool
  | [], _ => false
  | w :: rest, count =>
      if isLeadingSubstring pre w then
        if count + 1 ≥ MinAmount then true else checkCount pre MinAmount rest (count + 1)
      else checkCount pre MinAmount rest count

/-- Embeds Lexicon::CheckPrefixHasMinimumWords: false with a diagnostic on
an empty word set, otherwise the counting scan starting from count = 0. -/
def CheckPrefixHasMinimumWords (wordSet : List (List Nat)) (pre : List Nat)
    (MinAmount : Int) : Bool :=
  if wordSet.isEmpty then false
  else checkCount pre MinAmount wordSet 0

/-- Specification-side count: the number of words in the set having pre as
a leading substring, stated with the library prefix order List.IsPrefix. -/
def wordsWithLeadCount (wordSet : List (List Nat)) (pre : List Nat) : Nat :=
  (wordSet.filter (fun w => decide (List.IsPrefix pre w))).length

/-- Embeds the do-while body of Lexicon::GeneratePrefixFromRandomWord.
Arguments: the word set, the requested length, the Randomize flag, the
current value of the randomPrefix variable (initially the empty string),
and the remaining rand() draws. Each iteration: pick the word at index
rand() % size; a word shorter than 2 characters hits continue, which jumps
straight to the do-while condition with randomPrefix unchanged; otherwise
the candidate is the word's leading substring of length `length` (or
rand() % length + 1 when Randomize), clamped to the word's length; the
loop exits as soon as the condition CheckPrefixHasMinimumWords(candidate,
20) holds. Returns none when the supplied draws are exhausted. -/
def genLoop (wordSet : List (List Nat)) (length : Nat) (Randomize : Bool) :
    List Nat → List Nat → Option (List Nat)
  | _, [] => none
  | prev, r :: rest =>
      if (wordSet.getD (r % wordSet.length) []).length < 2 then
        if CheckPrefixHasMinimumWords wordSet prev 20 then some prev
        else genLoop wordSet length Randomize prev rest
      else
        if Randomize then
          match rest with
          | [] => none
          | r2 :: rest2 =>
            if CheckPrefixHasMinimumWords wordSet
                ((wordSet.getD (r % wordSet.length) []).take
                  (min (r2 % length + 1) (wordSet.getD (r % wordSet.length) []).length)) 20 then
              some ((wordSet.getD (r % wordSet.length) []).take
                (min (r2 % length + 1) (wordSet.getD (r % wordSet.length) []).length))
            else genLoop wordSet length Randomize
              ((wordSet.getD (r % wordSet.length) []).take
                (min (r2 % length + 1) (wordSet.getD (r % wordSet.length) []).length)) rest2
        else
          if CheckPrefixHasMinimumWords wordSet
              ((wordSet.getD (r % wordSet.length) []).take
                (min length (wordSet.getD (r % wordSet.length) []).length)) 20 then
            some ((wordSet.getD (r % wordSet.length) []).take
              (min length (wordSet.getD (r % wordSet.length) []).length))
          else genLoop wordSet length Randomize
            ((wordSet.getD (r % wordSet.length) []).take
              (min length (wordSet.getD (r % wordSet.length) []).length)) rest

/-- Embeds Lexicon::GeneratePrefixFromRandomWord: the empty string with a
diagnostic on an empty word set, otherwise the rejection-sampling loop
with randomPrefix initially empty. -/
def GeneratePrefixFromRandomWord (wordSet : List (List Nat)) (length : Nat)
    (Randomize : Bool) (draws : List Nat) : Option (List Nat) :=
  if wordSet.isEmpty then some []
  else genLoop wordSet length Randomize [] draws

/-- Embeds the construction performed by Lexicon::Initialize together with
the AssetManager loaders it calls: the dictionary words populate the
dictionary trie, the nsfw words populate the nsfw trie, and the prefixes
populate the prefix list. -/
def mkLexicon (words prefixes nsfwWords : List (List Nat)) : Lexicon :=
  ⟨buildTrie words, buildTrie nsfwWords, prefixes⟩

/-- Embeds the static std::unique_ptr<Lexicon> Lexicon::instance. -/
structure LexState where
  inst : Option Lexicon

/-- The process state before any call to Lexicon::Initialize: the static
instance pointer is null. -/
def uninitializedState : LexState := ⟨none⟩

/-- Embeds the static Lexicon::Initialize: when the instance already
exists the call does nothing; otherwise it creates the instance and loads
the three corpora. -/
def Initialize (st : LexState) (words prefixes nsfwWords : List (List Nat)) : LexState :=
  match st.inst with
  | some _ => st
  | none => ⟨some (mkLexicon words prefixes nsfwWords)⟩

/-- Embeds the static Lexicon::GetInstance: none (with a diagnostic) when
the instance was never initialized, otherwise the instance. -/
def GetInstance (st : LexState) : Option Lexicon := st.inst

/-- Embeds Lexicon::getRandomPrefix: the empty string with a diagnostic
when the prefix list is empty, otherwise the entry at rand() % size. -/
def getRandomPrefixEntry (lx : Lexicon) (r : Nat) : List Nat :=
  if lx.prefixList.isEmpty then []
  else lx.prefixList.getD (r % lx.prefixList.length) []

/-- Path existence from a node, the quantity startsWith computes. -/
def nodeHasPath (t : TrieNode) (p : List Nat) : Bool := (walkPath t p).isSome

/-!
## Lemmas about the leading-substring check
-/

lemma isLeadingSubstring_correct (pre : List Nat) :
    ∀ w : List Nat, isLeadingSubstring pre w = true ↔ List.IsPrefix pre w := by
  induction pre with
  | nil => intro w; simp [isLeadingSubstring, List.nil_prefix]
  | cons p ps ih =>
    intro w
    cases w with
    | nil => simp [isLeadingSubstring, List.prefix_nil]
    | cons c cs =>
      simp only [isLeadingSubstring, Bool.and_eq_true, beq_iff_eq, List.cons_prefix_cons]
      rw [ih cs]

lemma filter_lead_eq (ws : List (List Nat)) (pre : List Nat) :
    ws.filter (fun w => isLeadingSubstring pre w) =
      ws.filter (fun w => decide (List.IsPrefix pre w)) := by
  apply List.filter_congr
  intro w _
  rw [Bool.eq_iff_iff]
  simp [isLeadingSubstring_correct]

/-!
## Lemmas about CheckPrefixHasMinimumWords
-/

lemma checkCount_eq_true_iff (pre : List Nat) (k : Int) :
    ∀ (ws : List (List Nat)) (count : Int), count < k →
      (checkCount pre k ws count = true ↔
        k ≤ count + ((ws.filter (fun w => isLeadingSubstring pre w)).length : Int)) := by
  intro ws
  induction ws with
  | nil =>
    intro count hc
    simp only [checkCount, List.filter_nil, List.length_nil]
    simp
    omega
  | cons w rest ih =>
    intro count hc
    by_cases hw : isLeadingSubstring pre w = true
    · by_cases hk : count + 1 ≥ k
      · simp only [checkCount, hw, if_true, if_pos hk]
        simp only [List.filter_cons, hw, if_true, List.length_cons]
        push_cast
        constructor
        · intro _; omega
        · intro _; trivial
      · simp only [checkCount, hw, if_true, if_neg hk]
        rw [ih (count + 1) (by omega)]
        simp only [List.filter_cons, hw, if_true, List.length_cons]
        push_cast
        omega
    · simp only [checkCount, hw, Bool.false_eq_true, if_false]
      rw [ih count hc]
      simp only [List.filter_cons, hw, Bool.false_eq_true, if_false]

lemma check_iff_count (ws : List (List Nat)) (pre : List Nat) (k : Int) (hk : 1 ≤ k) :
    (CheckPrefixHasMinimumWords ws pre k = true ↔ k ≤ (wordsWithLeadCount ws pre : Int)) := by
  unfold CheckPrefixHasMinimumWords wordsWithLeadCount
  rw [← filter_lead_eq]
  cases ws with
  | nil =>
    simp
    omega
  | cons w rest =>
    simp only [List.isEmpty_cons, if_false, Bool.false_eq_true]
    rw [checkCount_eq_true_iff pre k (w :: rest) 0 (by omega)]
    simp

/-!
## Lemmas about the generation loop
-/

lemma genLoop_some_check (ws : List (List Nat)) (len : Nat) (rnd : Bool) :
    ∀ (n : Nat) (draws : List Nat), draws.length ≤ n →
      ∀ (prev p : List Nat), genLoop ws len rnd prev draws = some p →
        CheckPrefixHasMinimumWords ws p 20 = true := by
  intro n
  induction n with
  | zero =>
    intro draws hlen prev p h
    cases draws with
    | nil =>
      rw [genLoop] at h
      exact Option.noConfusion h
    | cons r rest =>
      simp only [List.length_cons] at hlen
      omega
  | succ m ih =>
    intro draws hlen prev p h
    rw [genLoop.eq_def] at h
    split at h
    · exact Option.noConfusion h
    · rename_i prev2 r rest
      have hrest : rest.length ≤ m := by
        simp only [List.length_cons] at hlen
        omega
      split at h
      · split at h
        · rename_i h1 h2
          injection h with h3
          rw [← h3]; exact h2
        · exact ih rest hrest _ p h
      · split at h
        · split at h
          · exact Option.noConfusion h
          · rename_i r2 rest2
            split at h
            · rename_i h3
              injection h with h4
              rw [← h4]; exact h3
            · refine ih rest2 ?_ _ p h
              simp only [List.length_cons] at hrest
              omega
        · split at h
          · rename_i h3
            injection h with h4
            rw [← h4]; exact h3
          · exact ih rest hrest _ p h

/-!
## Lemmas about the trie
-/

lemma findChild_setChild_self (c : Nat) (t : TrieNode) :
    ∀ ch : List (Nat × TrieNode), findChild c (setChild c t ch) = some t := by
  intro ch
  induction ch with
  | nil => simp [setChild, findChild]
  | cons e rest ih =>
    obtain ⟨d, u⟩ := e
    by_cases hd : d == c
    · simp [setChild, findChild, hd]
    · simp only [setChild, hd, Bool.false_eq_true, if_false, findChild]
      exact ih

lemma findChild_setChild_ne (c d : Nat) (t : TrieNode) (hne : d ≠ c) :
    ∀ ch : List (Nat × TrieNode), findChild d (setChild c t ch) = findChild d ch := by
  intro ch
  induction ch with
  | nil =>
    simp only [setChild, findChild]
    rw [if_neg (by simpa using hne.symm)]
  | cons e rest ih =>
    obtain ⟨a, u⟩ := e
    by_cases ha : a == c
    · have hac : a = c := by simpa using ha
      simp only [setChild, ha, if_true, findChild]
      rw [if_neg (by simpa [hac] using hne.symm), if_neg (by simpa [hac] using hne.symm)]
    · simp only [setChild, ha, Bool.false_eq_true, if_false, findChild]
      by_cases had : a == d
      · simp [had]
      · simp only [had, Bool.false_eq_true, if_false]
        exact ih

lemma nodeSearch_nil (t : TrieNode) : nodeSearch t [] = t.isEndOfWord := by
  simp [nodeSearch, walkPath]

lemma nodeSearch_cons (ch : List (Nat × TrieNode)) (e : Bool) (c : Nat) (cs : List Nat) :
    nodeSearch (.mk ch e) (c :: cs) =
      (match findChild c ch with
       | none => false
       | some u => nodeSearch u cs) := by
  cases h : findChild c ch with
  | none => simp [nodeSearch, walkPath, TrieNode.children, h]
  | some u => simp [nodeSearch, walkPath, TrieNode.children, h]

lemma nodeSearch_newNode (w : List Nat) : nodeSearch TrieNode.newNode w = false := by
  cases w with
  | nil => simp [TrieNode.newNode, nodeSearch_nil, TrieNode.isEndOfWord]
  | cons c cs => simp [TrieNode.newNode, nodeSearch_cons, findChild]

lemma nodeSearch_insertPath_self :
    ∀ (w : List Nat) (t : TrieNode), nodeSearch (insertPath t w) w = true := by
  intro w
  induction w with
  | nil =>
    intro t
    cases t with
    | mk ch e => simp [insertPath, nodeSearch_nil, TrieNode.isEndOfWord]
  | cons c cs ih =>
    intro t
    cases t with
    | mk ch e =>
      rw [insertPath, nodeSearch_cons, findChild_setChild_self]
      exact ih _

lemma nodeSearch_insertPath_ne :
    ∀ (v w : List Nat), v ≠ w → ∀ t : TrieNode,
      nodeSearch (insertPath t v) w = nodeSearch t w := by
  intro v
  induction v with
  | nil =>
    intro w hne t
    cases t with
    | mk ch e =>
      cases w with
      | nil => exact absurd rfl hne
      | cons d ds => rw [insertPath, nodeSearch_cons, nodeSearch_cons]
  | cons c cs ih =>
    intro w hne t
    cases t with
    | mk ch e =>
      cases w with
      | nil => simp [insertPath, nodeSearch_nil, TrieNode.isEndOfWord]
      | cons d ds =>
        by_cases hcd : c = d
        · subst hcd
          have hne2 : cs ≠ ds := by
            intro hcontra
            exact hne (by rw [hcontra])
          rw [insertPath, nodeSearch_cons, nodeSearch_cons, findChild_setChild_self]
          cases hf : findChild c ch with
          | none =>
            simp only [hf, Option.getD_none]
            rw [ih ds hne2 TrieNode.newNode, nodeSearch_newNode]
          | some u =>
            simp only [hf, Option.getD_some]
            exact ih ds hne2 u
        · rw [insertPath, nodeSearch_cons, nodeSearch_cons,
            findChild_setChild_ne c d _ (fun hcontra => hcd hcontra.symm)]

lemma search_insert (t : Trie) (v w : List Nat) :
    (t.insert v).search w = if v = w then true else t.search w := by
  by_cases hvw : v = w
  · subst hvw
    simp only [if_true, Trie.insert, Trie.search]
    exact nodeSearch_insertPath_self v t.root
  · rw [if_neg hvw]
    simp only [Trie.insert, Trie.search]
    exact nodeSearch_insertPath_ne v w hvw t.root

lemma search_foldl (ws : List (List Nat)) :
    ∀ (t : Trie) (w : List Nat),
      (ws.foldl Trie.insert t).search w = (ws.contains w || t.search w) := by
  induction ws with
  | nil => intro t w; simp
  | cons v vs ih =>
    intro t w
    simp only [List.foldl_cons, List.contains_cons]
    rw [ih (t.insert v) w, search_insert]
    by_cases hvw : v = w
    · subst hvw
      simp
    · rw [if_neg hvw]
      have : (w == v) = false := by
        simp [beq_iff_eq]
        exact fun hcontra => hvw hcontra.symm
      simp [this]

lemma search_buildTrie (ws : List (List Nat)) (w : List Nat) :
    (buildTrie ws).search w = ws.contains w := by
  rw [buildTrie, search_foldl]
  simp [Trie.newTrie, Trie.search, nodeSearch_newNode]

lemma hasPath_nil (t : TrieNode) : nodeHasPath t [] = true := by
  simp [nodeHasPath, walkPath]

lemma hasPath_cons (ch : List (Nat × TrieNode)) (e : Bool) (c : Nat) (cs : List Nat) :
    nodeHasPath (.mk ch e) (c :: cs) =
      (match findChild c ch with
       | none => false
       | some u => nodeHasPath u cs) := by
  cases h : findChild c ch with
  | none => simp [nodeHasPath, walkPath, TrieNode.children, h]
  | some u => simp [nodeHasPath, walkPath, TrieNode.children, h]

lemma hasPath_newNode (p : List Nat) :
    nodeHasPath TrieNode.newNode p = decide (p = []) := by
  cases p with
  | nil => simp [hasPath_nil]
  | cons c cs => simp [TrieNode.newNode, hasPath_cons, findChild]

lemma hasPath_insertPath :
    ∀ (v : List Nat) (t : TrieNode) (p : List Nat),
      nodeHasPath (insertPath t v) p = (nodeHasPath t p || isLeadingSubstring p v) := by
  intro v
  induction v with
  | nil =>
    intro t p
    cases t with
    | mk ch e =>
      cases p with
      | nil => simp [hasPath_nil, isLeadingSubstring]
      | cons c cs =>
        rw [insertPath, hasPath_cons, hasPath_cons]
        simp [isLeadingSubstring]
  | cons a as ih =>
    intro t p
    cases t with
    | mk ch e =>
      cases p with
      | nil => simp [hasPath_nil]
      | cons c cs =>
        by_cases hca : c = a
        · subst hca
          rw [insertPath, hasPath_cons, findChild_setChild_self, hasPath_cons]
          cases hf : findChild c ch with
          | none =>
            simp only [hf, Option.getD_none, ih TrieNode.newNode cs, hasPath_newNode]
            simp only [isLeadingSubstring, beq_self_eq_true, Bool.true_and, Bool.false_or]
            cases cs with
            | nil => simp [isLeadingSubstring]
            | cons d ds => simp
          | some u =>
            simp only [hf, Option.getD_some, ih u cs]
            simp [isLeadingSubstring]
        · rw [insertPath, hasPath_cons,
            findChild_setChild_ne a c _ hca, hasPath_cons]
          have : (c == a) = false := by
            simp [beq_iff_eq]
            exact hca
          simp only [isLeadingSubstring, this, Bool.false_and, Bool.or_false]

lemma startsWith_insert (t : Trie) (v p : List Nat) :
    (t.insert v).startsWith p = (t.startsWith p || isLeadingSubstring p v) := by
  simp only [Trie.insert, Trie.startsWith]
  exact hasPath_insertPath v t.root p

lemma startsWith_foldl (ws : List (List Nat)) :
    ∀ (t : Trie) (p : List Nat),
      (ws.foldl Trie.insert t).startsWith p =
        (t.startsWith p || ws.any (fun w => isLeadingSubstring p w)) := by
  induction ws with
  | nil => intro t p; simp
  | cons v vs ih =>
    intro t p
    simp only [List.foldl_cons, List.any_cons]
    rw [ih (t.insert v) p, startsWith_insert]
    rw [Bool.or_assoc]

/-!
## Lemmas about normalization (trim and lowercase)
-/

lemma isSpaceChar_toLowerChar (c : Nat) : isSpaceChar (toLowerChar c) = isSpaceChar c := by
  unfold toLowerChar
  split
  · rename_i h
    simp only [isSpaceChar]
    rw [decide_eq_decide]
    omega
  · rfl

lemma toLowerChar_toLowerChar (c : Nat) : toLowerChar (toLowerChar c) = toLowerChar c := by
  unfold toLowerChar
  split
  · rename_i h
    rw [if_neg (by omega)]
  · rfl

lemma dropWhile_map (f : Nat → Nat) (p : Nat → Bool) (hp : ∀ x, p (f x) = p x) :
    ∀ l : List Nat, List.dropWhile p (l.map f) = (List.dropWhile p l).map f := by
  intro l
  induction l with
  | nil => simp
  | cons a l ih =>
    by_cases hpa : p a = true
    · simp [List.dropWhile_cons, hp a, hpa, ih]
    · simp [List.dropWhile_cons, hp a, hpa]

lemma trim_map_toLower (s : List Nat) :
    trim (s.map toLowerChar) = (trim s).map toLowerChar := by
  unfold trim
  rw [dropWhile_map _ _ isSpaceChar_toLowerChar, ← List.map_reverse,
    dropWhile_map _ _ isSpaceChar_toLowerChar, ← List.map_reverse]

lemma dropWhile_self_idem (p : Nat → Bool) :
    ∀ l : List Nat, List.dropWhile p (List.dropWhile p l) = List.dropWhile p l := by
  intro l
  induction l with
  | nil => simp
  | cons a l ih =>
    by_cases hpa : p a = true
    · simp [List.dropWhile_cons, hpa, ih]
    · simp [List.dropWhile_cons, hpa]

lemma dropWhile_append_last (p : Nat → Bool) (a : Nat) (h : p a = false) :
    ∀ xs : List Nat, List.dropWhile p (xs ++ [a]) = List.dropWhile p xs ++ [a] := by
  intro xs
  induction xs with
  | nil => simp [List.dropWhile_cons, h]
  | cons x xs ih =>
    by_cases hx : p x = true
    · simp [List.dropWhile_cons, hx, ih]
    · simp [List.dropWhile_cons, hx]

lemma dropWhile_head_false (p : Nat → Bool) :
    ∀ (l : List Nat) (a : Nat) (as : List Nat),
      List.dropWhile p l = a :: as → p a = false := by
  intro l
  induction l with
  | nil =>
    intro a as h
    simp [List.dropWhile] at h
  | cons x xs ih =>
    intro a as h
    by_cases hx : p x = true
    · rw [List.dropWhile_cons, if_pos hx] at h
      exact ih a as h
    · rw [List.dropWhile_cons, if_neg hx] at h
      injection h with h1 h2
      rw [← h1]
      simpa using hx

lemma trim_trim (s : List Nat) : trim (trim s) = trim s := by
  unfold trim
  cases h : List.dropWhile isSpaceChar s with
  | nil => simp
  | cons a as =>
    have ha : isSpaceChar a = false := dropWhile_head_false isSpaceChar s a as h
    rw [List.reverse_cons, dropWhile_append_last isSpaceChar a ha as.reverse,
      List.reverse_append, List.reverse_cons]
    simp only [List.reverse_nil, List.nil_append, List.singleton_append]
    rw [List.dropWhile_cons, if_neg (by simp [ha]), List.reverse_cons,
      dropWhile_append_last isSpaceChar a ha, List.reverse_reverse,
      dropWhile_self_idem, List.reverse_append]
    simp

lemma map_toLower_idem (s : List Nat) :
    (s.map toLowerChar).map toLowerChar = s.map toLowerChar := by
  induction s with
  | nil => rfl
  | cons c cs ih => simp [toLowerChar_toLowerChar, ih]

lemma normalize_idem (raw : List Nat) :
    (trim ((trim raw).map toLowerChar)).map toLowerChar = (trim raw).map toLowerChar := by
  rw [trim_map_toLower, trim_trim, map_toLower_idem]

/-!
## Concrete corpora used by witnesses and failing traces
-/

/-- Twenty distinct two-character words, all beginning with character 97. -/
def ws20 : List (List Nat) := (List.range 20).map (fun i => [97, 48 + i])

/-- The ws20 corpus plus one single-character word (104): a dictionary with
at least 20 words, one of which is shorter than 2 characters. -/
def wsBug : List (List Nat) := [104] :: ws20

/-!
## Claims
-/

/-- C1: whenever the dictionary word set is non-empty and a call to
GeneratePrefixFromRandomWord terminates (here: exits its loop within the
supplied random draws), the returned string p satisfies
CheckPrefixHasMinimumWords(p, 20) = true. -/
theorem generatePrefix_meets_minimum (ws : List (List Nat)) (len : Nat) (rnd : Bool)
    (draws : List Nat) (p : List Nat) (hne : ws ≠ [])
    (h : GeneratePrefixFromRandomWord ws len rnd draws = some p) :
    CheckPrefixHasMinimumWords ws p 20 = true := by
  unfold GeneratePrefixFromRandomWord at h
  rw [if_neg (fun hcontra => hne (List.isEmpty_iff.mp hcontra))] at h
  exact genLoop_some_check ws len rnd draws.length draws le_rfl [] p h

/-- Witness for C1 at a concrete corpus of 20 words and a one-draw trace. -/
theorem generatePrefix_meets_minimum_witness :
    ws20 ≠ [] ∧ GeneratePrefixFromRandomWord ws20 1 false [0] = some [97] ∧
      CheckPrefixHasMinimumWords ws20 [97] 20 = true :=
  ⟨by decide, by decide,
    generatePrefix_meets_minimum ws20 1 false [0] [97] (by decide) (by decide)⟩

/-- C2 (amended): for every word set, candidate string and integer k with
k at least 1, CheckPrefixHasMinimumWords returns true iff at least k words
of the set have the candidate as a leading substring. The original claim
quantified over every integer k; it fails for k = 0 (see the
counterexample), where the scan still returns false when no word matches
or the set is empty although the count 0 is at least k. -/
theorem checkPrefixHasMinimumWords_iff_count (ws : List (List Nat)) (pre : List Nat)
    (k : Int) (hk : 1 ≤ k) :
    (CheckPrefixHasMinimumWords ws pre k = true ↔ k ≤ (wordsWithLeadCount ws pre : Int)) :=
  check_iff_count ws pre k hk

/-- Counterexample to C2 as stated: at k = 0, word set containing only the
word 97 and candidate 98, the count of matching words is 0 which is at
least k, yet the scan returns false. -/
theorem checkPrefixHasMinimumWords_k_zero_counterexample :
    ¬ (CheckPrefixHasMinimumWords [[97]] [98] 0 = true ↔
        (0 : Int) ≤ (wordsWithLeadCount [[97]] [98] : Int)) := by
  decide

/-- Witness for the amended C2 at a concrete word set and k = 1. -/
theorem checkPrefixHasMinimumWords_iff_count_witness :
    (1 : Int) ≤ 1 ∧ CheckPrefixHasMinimumWords [[97]] [97] 1 = true :=
  ⟨by decide,
    (checkPrefixHasMinimumWords_iff_count [[97]] [97] 1 (by decide)).mpr (by decide)⟩

/-- C3: evaluation of the code at the failing input. On the non-empty
dictionary wsBug (21 words, one of length 1) with length = 4 and
Randomize = false, the first draw selects the single-character word, the
continue statement jumps to the loop condition with the candidate still
empty, the empty candidate passes the minimum-words condition, and the
function returns the empty string, contradicting the claim that the result
has length exactly 4 and is never empty for length at least 1. -/
theorem generatePrefix_empty_on_short_word :
    GeneratePrefixFromRandomWord wsBug 4 false [0] = some [] ∧ wsBug ≠ [] := by
  constructor
  · decide
  · decide

/-- C4: there exist a dictionary state and a draw sequence for which the
generator returns the empty string: wsBug has at least 20 words, contains
the word 104 of length below 2, the empty candidate passes
CheckPrefixHasMinimumWords with minimum 20, and the run that first samples
the short word returns the empty string. -/
theorem generatePrefix_empty_trace_exists :
    20 ≤ wsBug.length ∧ [104] ∈ wsBug ∧ [104].length < 2 ∧
      CheckPrefixHasMinimumWords wsBug [] 20 = true ∧
      GeneratePrefixFromRandomWord wsBug 3 false [0] = some [] := by
  decide

/-- C5: for every sequence of insert operations on a fresh Trie and every
word w, search(w) returns true iff w is one of the inserted words; in
particular a word that is only a proper leading substring of an inserted
word is not found. -/
theorem trie_search_iff_inserted (ws : List (List Nat)) (w : List Nat) :
    (buildTrie ws).search w = true ↔ w ∈ ws := by
  rw [search_buildTrie]
  simp

/-- C6 (amended): for every Trie state reachable by a sequence of inserts
and every string p, startsWith(p) returns true iff p is empty or some
inserted word has p as a leading substring. The original claim, without
the disjunct for the empty p, fails on the empty insert sequence (see the
counterexample): startsWith of the empty string on a fresh trie is true
although no word is stored. -/
theorem startsWith_iff_nil_or_stored (ws : List (List Nat)) (p : List Nat) :
    (buildTrie ws).startsWith p = true ↔ (p = [] ∨ ∃ w ∈ ws, List.IsPrefix p w) := by
  rw [buildTrie, startsWith_foldl]
  have hnew : Trie.newTrie.startsWith p = decide (p = []) := by
    simp only [Trie.newTrie, Trie.startsWith]
    exact hasPath_newNode p
  rw [hnew]
  simp only [Bool.or_eq_true, decide_eq_true_iff, List.any_eq_true]
  constructor
  · rintro (hp | ⟨w, hw, hlead⟩)
    · exact Or.inl hp
    · exact Or.inr ⟨w, hw, (isLeadingSubstring_correct p w).mp hlead⟩
  · rintro (hp | ⟨w, hw, hlead⟩)
    · exact Or.inl hp
    · exact Or.inr ⟨w, hw, (isLeadingSubstring_correct p w).mpr hlead⟩

/-- Counterexample to C6 as stated: on the trie reached by the empty insert
sequence, startsWith of the empty string returns true, yet no stored word
has the empty string as a leading substring because nothing is stored. -/
theorem startsWith_empty_trie_counterexample :
    ¬ ((buildTrie []).startsWith [] = true ↔
        ∃ w ∈ ([] : List (List Nat)), List.IsPrefix [] w) := by
  decide

/-- C7: checkUserWord is insensitive to surrounding whitespace and letter
case: its result on any raw input equals its result on the trimmed,
lowercased form of that input; in particular the raw input with bytes of
the text CAT surrounded by spaces behaves like the lowercase text cat. -/
theorem checkUserWord_normalization_invariant (lx : Lexicon) (raw : List Nat) :
    lx.checkUserWord raw = lx.checkUserWord ((trim raw).map toLowerChar) ∧
    lx.checkUserWord [32, 32, 67, 65, 84, 32] = lx.checkUserWord [99, 97, 116] := by
  constructor
  · simp only [Lexicon.checkUserWord]
    rw [normalize_idem]
  · rfl

/-- C8: the dictionary and profanity corpora are independent. A normalized
word inserted only into the profanity corpus is rejected by checkUserWord,
a normalized word inserted only into the dictionary corpus is rejected by
isNsfwWord, and each query is entirely insensitive to the contents of the
other corpus. Normalization of the inserted words ((trim w).map
toLowerChar = w) is the stated precondition of insert in the data model
and is established by the corpus loaders. -/
theorem corpora_independent (dict prefixes nsfwWords : List (List Nat)) (w v u : List Nat)
    (hw : (trim w).map toLowerChar = w) (hwd : w ∉ dict)
    (hv : (trim v).map toLowerChar = v) (hvn : v ∉ nsfwWords) :
    (mkLexicon dict prefixes nsfwWords).checkUserWord w = false ∧
    (mkLexicon dict prefixes nsfwWords).isNsfwWord v = false ∧
    (∀ nsfw2, (mkLexicon dict prefixes nsfwWords).checkUserWord u =
      (mkLexicon dict prefixes nsfw2).checkUserWord u) ∧
    (∀ dict2, (mkLexicon dict prefixes nsfwWords).isNsfwWord u =
      (mkLexicon dict2 prefixes nsfwWords).isNsfwWord u) := by
  refine ⟨?_, ?_, fun _ => rfl, fun _ => rfl⟩
  · simp only [mkLexicon, Lexicon.checkUserWord, hw]
    rw [search_buildTrie]
    simp [hwd]
  · simp only [mkLexicon, Lexicon.isNsfwWord, hv]
    rw [search_buildTrie]
    simp [hvn]

/-- Witness for C8: dictionary containing only cat, profanity list
containing only dam; dam is rejected by checkUserWord and cat by
isNsfwWord. -/
theorem corpora_independent_witness :
    (mkLexicon [[99, 97, 116]] [] [[100, 97, 109]]).checkUserWord [100, 97, 109] = false ∧
    (mkLexicon [[99, 97, 116]] [] [[100, 97, 109]]).isNsfwWord [99, 97, 116] = false :=
  ⟨(corpora_independent [[99, 97, 116]] [] [[100, 97, 109]] [100, 97, 109] [99, 97, 116] []
      (by decide) (by decide) (by decide) (by decide)).1,
   (corpora_independent [[99, 97, 116]] [] [[100, 97, 109]] [100, 97, 109] [99, 97, 116] []
      (by decide) (by decide) (by decide) (by decide)).2.1⟩

/-- C9: once Initialize has completed, every subsequent call is a no-op:
the whole state (singleton instance, both tries and the prefix list) is
left exactly as the first call produced it. -/
theorem initialize_second_call_noop (w p n w2 p2 n2 : List (List Nat)) :
    Initialize (Initialize uninitializedState w p n) w2 p2 n2 =
      Initialize uninitializedState w p n ∧
    (Initialize uninitializedState w p n).inst = some (mkLexicon w p n) :=
  ⟨rfl, rfl⟩

/-- C10: structural misuse yields recoverable sentinel results:
GetInstance before Initialize returns the no-instance sentinel, and
getRandomPrefix on an empty curated prefix list returns the empty
string. -/
theorem misuse_reported_via_sentinels :
    GetInstance uninitializedState = none ∧
    ∀ (lx : Lexicon) (r : Nat), lx.prefixList = [] → getRandomPrefixEntry lx r = [] := by
  refine ⟨rfl, fun lx r h => ?_⟩
  simp [getRandomPrefixEntry, h]

/-- Witness for C10 at a lexicon built from three empty corpora. -/
theorem misuse_reported_via_sentinels_witness :
    getRandomPrefixEntry (mkLexicon [] [] []) 7 = [] :=
  misuse_reported_via_sentinels.2 (mkLexicon [] [] []) 7 rfl

end Framework
